import Mathlib

/-!
Verification of the role-assignment and access-control core of the
floripa-checkin-pro repository.

The embedding below is a shallow model of:
  * the SQL schema of `public.user_roles` and `public.access_codes`
    (migration creating the role tables), including their storage-layer
    uniqueness constraints;
  * the SQL functions `has_role`, `get_user_role`, `validate_access_code`
    and the plpgsql function `assign_role_with_code`
    (migration `20251210114021_fix_security_warnings.sql`);
  * the row-level-security policies on `user_roles`, `access_codes` and
    `activity_logs` that survive the fix migration;
  * the client-side operations: the access-code update in the admin
    component (`handleSave`, the version that updates `access_codes` by
    role), the user-deletion path (`handleDeleteUser`), and the two
    versions of the signup hook `signUp` present in the repository (the
    legacy one that touches the tables directly, and the current one that
    calls the `assign_role_with_code` RPC).

UUIDs are modelled as natural numbers (only equality is ever used on
them), timestamps as natural numbers, and SQL NULL as `Option`.
Tables are lists of rows; a SELECT without ORDER BY that picks one row
(`LIMIT 1`, plpgsql `SELECT INTO`) is modelled as `List.find?`, i.e. the
first matching row in the physical row order of the list.
-/

namespace Checkin

/-- The `app_role` enum: `CREATE TYPE public.app_role AS ENUM` with the
three values admin, equipe, recepcao. -/
inductive AppRole
  | admin
  | equipe
  | recepcao
deriving DecidableEq, Repr

/-- A row of `public.user_roles`:
`id UUID PRIMARY KEY, user_id UUID NOT NULL, role app_role NOT NULL,
created_at TIMESTAMPTZ NOT NULL`. -/
structure RoleRow where
  id : Nat
  user_id : Nat
  role : AppRole
  created_at : Nat
deriving DecidableEq, Repr

/-- A row of `public.access_codes`:
`id UUID PRIMARY KEY, role app_role NOT NULL UNIQUE, code TEXT NOT NULL,
updated_at TIMESTAMPTZ NOT NULL, updated_by UUID NULL`. -/
structure CodeRow where
  id : Nat
  role : AppRole
  code : String
  updated_at : Nat
  updated_by : Option Nat
deriving DecidableEq, Repr

/-- The database state relevant to the role core: the two role tables. -/
structure DB where
  user_roles : List RoleRow
  access_codes : List CodeRow
deriving DecidableEq, Repr

/-- The storage-layer constraint check of `public.user_roles`:
`id` is the PRIMARY KEY and the table declares `UNIQUE (user_id, role)`.
A candidate row violates the constraints iff an existing row has the same
`id`, or the same `user_id` AND the same `role`.  Note the uniqueness is
on the pair, not on `user_id` alone. -/
def userRolesViolation (rows : List RoleRow) (r : RoleRow) : Bool :=
  rows.any (fun x => x.id == r.id || (x.user_id == r.user_id && x.role == r.role))

/-- Storage-layer INSERT into `public.user_roles`: rejected (unique
violation) iff the constraint check fires, otherwise the row is appended. -/
def insertUserRole (db : DB) (r : RoleRow) : Option DB :=
  if userRolesViolation db.user_roles r then none
  else some { db with user_roles := db.user_roles ++ [r] }

/-- The seed rows of `public.access_codes`:
`INSERT INTO public.access_codes (role, code) VALUES ...` pairing admin
with "MASTER_FLORIPA", equipe with "EQUIPE_2025" and recepcao with
"RECEPCAO_EVENTO". -/
def seedAccessCodes : List CodeRow :=
  [{ id := 1, role := .admin, code := "MASTER_FLORIPA", updated_at := 0, updated_by := none },
   { id := 2, role := .equipe, code := "EQUIPE_2025", updated_at := 0, updated_by := none },
   { id := 3, role := .recepcao, code := "RECEPCAO_EVENTO", updated_at := 0, updated_by := none }]

/-- The database right after initialization: `user_roles` empty,
`access_codes` seeded. -/
def seedDB : DB :=
  { user_roles := [], access_codes := seedAccessCodes }

/-- SQL function `public.has_role(_user_id, _role)`:
`SELECT EXISTS (SELECT 1 FROM public.user_roles WHERE user_id = _user_id
AND role = _role)`.  The caller identity `auth.uid()` can be NULL
(anonymous), in which case the equality comparison is never satisfied. -/
def has_role (db : DB) (uid : Option Nat) (r : AppRole) : Bool :=
  db.user_roles.any (fun row => some row.user_id == uid && row.role == r)

/-- SQL function `public.get_user_role(_user_id)`:
`SELECT role FROM public.user_roles WHERE user_id = _user_id LIMIT 1`,
NULL when no row matches. -/
def get_user_role (db : DB) (uid : Nat) : Option AppRole :=
  (db.user_roles.find? (fun row => row.user_id == uid)).map (fun row => row.role)

/-- SQL function `public.validate_access_code(_code)`:
`SELECT role FROM public.access_codes WHERE code = _code LIMIT 1`,
NULL when no row matches. -/
def validate_access_code (db : DB) (c : String) : Option AppRole :=
  (db.access_codes.find? (fun row => row.code == c)).map (fun row => row.role)

/-- The internal outcome of one run of the plpgsql function
`public.assign_role_with_code`.  Each constructor is one exit path of the
function body: the first `RETURN NULL` (the access-code lookup left
`_role` NULL), the second `RETURN NULL` (the `EXISTS` check on
`user_roles` found a row for the user; at that point the local `_role`
holds the matched role), the final `RETURN _role` after the INSERT, and
the exceptional exit when the INSERT itself violates a constraint (the
transaction aborts, leaving the database unchanged). -/
inductive AssignOutcome
  | invalidCode
  | alreadyAssigned (matched : AppRole)
  | assigned (r : AppRole)
  | insertFailed
deriving DecidableEq, Repr

/-- The body of `public.assign_role_with_code(_user_id, _access_code)`
executed sequentially, instrumented with the exit path taken.  `newId` and
`newTs` stand for the `gen_random_uuid()` / `now()` defaults filled in by
the INSERT. -/
def assignOutcome (db : DB) (uid : Nat) (code : String) (newId newTs : Nat) :
    AssignOutcome × DB :=
  match db.access_codes.find? (fun row => row.code == code) with
  | none => (.invalidCode, db)
  | some matched =>
    if db.user_roles.any (fun row => row.user_id == uid) then
      (.alreadyAssigned matched.role, db)
    else
      match insertUserRole db { id := newId, user_id := uid, role := matched.role, created_at := newTs } with
      | none => (.insertFailed, db)
      | some dbNext => (.assigned matched.role, dbNext)

/-- The function `public.assign_role_with_code` as its callers see it: the returned
`app_role` is NULL on every exit path except the successful one, so both
failure kinds collapse to `none`. -/
def assign_role_with_code (db : DB) (uid : Nat) (code : String) (newId newTs : Nat) :
    Option AppRole × DB :=
  match assignOutcome db uid code newId newTs with
  | (.assigned r, dbNext) => (some r, dbNext)
  | (_, dbNext) => (none, dbNext)

/-! ## Row-level-security policies

The policy set on the role tables after the fix migration
(`20251210114021_fix_security_warnings.sql`): the original permissive
rules "System can insert roles" and "Anyone can read codes for
validation" are dropped and replaced.  Postgres RLS is permissive-OR and
deny-by-default: an operation on a row is allowed iff some policy for
that (table, command) accepts it, and a command with no policy at all is
denied.  Each predicate below is the disjunction of the surviving
policies for one (table, command) pair; `uid` is `auth.uid()`, possibly
NULL. -/

/-- SELECT on `user_roles`: policy "Users can view their own role"
(`auth.uid() = user_id`) OR policy "Admins can view all roles"
(`public.has_role` of the caller and the admin role). -/
def canSelectUserRoleRow (db : DB) (uid : Option Nat) (row : RoleRow) : Bool :=
  uid == some row.user_id || has_role db uid .admin

/-- INSERT on `user_roles`: the only policy is "Only secure function can
insert roles" with `WITH CHECK (false)` — denied for every direct caller
and every payload (the SECURITY DEFINER function bypasses RLS). -/
def canInsertUserRoleRow (_db : DB) (_uid : Option Nat) (_row : RoleRow) : Bool :=
  false

/-- UPDATE on `user_roles`: no UPDATE policy exists, so RLS default-deny
applies. -/
def canUpdateUserRoleRow (_db : DB) (_uid : Option Nat) (_row : RoleRow) : Bool :=
  false

/-- DELETE on `user_roles`: policy "Admins can delete roles". -/
def canDeleteUserRoleRow (db : DB) (uid : Option Nat) (_row : RoleRow) : Bool :=
  has_role db uid .admin

/-- SELECT on `access_codes`: after the fix migration the only policy is
"Only admins can view access codes". -/
def canSelectAccessCodeRow (db : DB) (uid : Option Nat) (_row : CodeRow) : Bool :=
  has_role db uid .admin

/-- UPDATE on `access_codes`: policy "Admins can update codes". -/
def canUpdateAccessCodeRow (db : DB) (uid : Option Nat) (_row : CodeRow) : Bool :=
  has_role db uid .admin

/-- SELECT on `activity_logs`: policy "Admins and equipe can view logs". -/
def canSelectActivityLog (db : DB) (uid : Option Nat) : Bool :=
  has_role db uid .admin || has_role db uid .equipe

/-- INSERT on `activity_logs`: policy "Authenticated users can create
logs" (`auth.uid() IS NOT NULL`). -/
def canInsertActivityLog (_db : DB) (uid : Option Nat) : Bool :=
  uid.isSome

/-! ## Client-side operations -/

/-- The admin access-code update (`handleSave` in the access-code
management component, per edited role): an update on `access_codes`
setting `code` and `updated_at` on the rows whose `role` equals the
targeted role — a SQL UPDATE that rewrites matching rows and never
inserts. -/
def updateAccessCode (db : DB) (r : AppRole) (newCode : String) (ts : Nat) : DB :=
  { db with
    access_codes := db.access_codes.map
      (fun row => if row.role == r then { row with code := newCode, updated_at := ts } else row) }

/-- The role part of the admin user-deletion path (`handleDeleteUser`):
a delete on `user_roles` filtered by `user_id` — removes every
`user_roles` row of that user.  (The same handler then also deletes
the profile row, which carries no privilege and is not modelled.) -/
def deleteUserRoles (db : DB) (uid : Nat) : DB :=
  { db with user_roles := db.user_roles.filter (fun row => !(row.user_id == uid)) }

/-- One backend request issued by the signup client code, as recorded in
a trace. -/
inductive ClientCall
  | authSignUp (email pass display : String)
  | rpcAssignRole (uid : Nat) (code : String)
  | selectAccessCodeByCode (code : String)
  | insertUserRoleRow (uid : Nat) (role : AppRole)
  | updateProfileName (uid : Nat) (display : String)
deriving DecidableEq, Repr

/-- The current signup hook (`signUp` in the version of the auth hook that
calls the RPC): create the identity first; if a user object comes back,
call the RPC `assign_role_with_code` with exactly the user id and the
submitted code; on RPC error or NULL role, fail; otherwise update the
profile display name and succeed.  The backend responses are parameters;
the returned pair is (trace of backend requests, error message or none). -/
def signUpCurrent (email pass display code : String)
    (authResp : Except String (Option Nat))
    (rpcResp : Except String (Option AppRole)) :
    List ClientCall × Option String :=
  let t0 := [ClientCall.authSignUp email pass display]
  match authResp with
  | .error e => (t0, some e)
  | .ok none => (t0, none)
  | .ok (some uid) =>
    let t1 := t0 ++ [ClientCall.rpcAssignRole uid code]
    match rpcResp with
    | .error _ => (t1, some "Erro ao validar código de acesso. Tente novamente.")
    | .ok none => (t1, some "Código de acesso inválido. Verifique com o administrador.")
    | .ok (some _) => (t1 ++ [ClientCall.updateProfileName uid display], none)

/-- The legacy signup hook (`signUp` in `src/hooks/useAuth.tsx`, the
pre-migration version): it first reads `access_codes` itself
(a select of `role` from `access_codes` filtered by the submitted code),
then creates the identity, then directly inserts the row
`(userId, validatedRole)` into `user_roles` — supplying the role value
itself — and updates the profile.  The insert result is only logged, not
consulted, so it is not a parameter. -/
def signUpLegacy (email pass display code : String)
    (codeResp : Except String (Option AppRole))
    (authResp : Except String (Option Nat)) :
    List ClientCall × Option String :=
  let t0 := [ClientCall.selectAccessCodeByCode code]
  match codeResp with
  | .error _ => (t0, some "Código de acesso inválido. Verifique com o administrador.")
  | .ok none => (t0, some "Código de acesso inválido. Verifique com o administrador.")
  | .ok (some validatedRole) =>
    let t1 := t0 ++ [ClientCall.authSignUp email pass display]
    match authResp with
    | .error e => (t1, some e)
    | .ok none => (t1, none)
    | .ok (some uid) =>
      (t1 ++ [ClientCall.insertUserRoleRow uid validatedRole,
              ClientCall.updateProfileName uid display], none)

/-! ## Interleaved execution of two concurrent `assign_role_with_code` calls

Under the default READ COMMITTED isolation each SQL statement inside the
plpgsql body is individually atomic and sees the currently committed
state, so a run of `assign_role_with_code` decomposes into three atomic
phases: the access-code lookup, the `EXISTS` check on `user_roles`, and
the constrained INSERT.  `runSchedule` interleaves two calls phase by
phase according to a schedule. -/

/-- The arguments of one `assign_role_with_code` call, together with the
`gen_random_uuid()` / `now()` values its INSERT would use. -/
structure CallParams where
  uid : Nat
  code : String
  newId : Nat
  newTs : Nat
deriving DecidableEq, Repr

/-- The control point of one in-flight call: about to run the code
lookup; lookup done with a matched role, about to run the EXISTS check;
check passed, about to run the INSERT; or finished with the value the
function returns. -/
inductive CallPhase
  | start
  | validated (r : AppRole)
  | readyInsert (r : AppRole)
  | done (result : Option AppRole)
deriving DecidableEq, Repr

/-- Execute the next atomic statement of one call against the shared
database. -/
def stepCall (db : DB) (p : CallParams) (ph : CallPhase) : CallPhase × DB :=
  match ph with
  | .start =>
    match db.access_codes.find? (fun row => row.code == p.code) with
    | none => (.done none, db)
    | some matched => (.validated matched.role, db)
  | .validated r =>
    if db.user_roles.any (fun row => row.user_id == p.uid) then (.done none, db)
    else (.readyInsert r, db)
  | .readyInsert r =>
    match insertUserRole db { id := p.newId, user_id := p.uid, role := r, created_at := p.newTs } with
    | none => (.done none, db)
    | some dbNext => (.done (some r), dbNext)
  | .done res => (.done res, db)

/-- Joint state of two in-flight calls over a shared database. -/
structure TwoCalls where
  db : DB
  c1 : CallPhase
  c2 : CallPhase
deriving DecidableEq, Repr

/-- Run a schedule: `true` steps call 1, `false` steps call 2. -/
def runSchedule (p1 p2 : CallParams) : List Bool → TwoCalls → TwoCalls
  | [], s => s
  | b :: rest, s =>
    if b then
      let (ph, dbNext) := stepCall s.db p1 s.c1
      runSchedule p1 p2 rest { db := dbNext, c1 := ph, c2 := s.c2 }
    else
      let (ph, dbNext) := stepCall s.db p2 s.c2
      runSchedule p1 p2 rest { db := dbNext, c1 := s.c1, c2 := ph }

/-! ## Concrete states used by witnesses and counterexamples -/

/-- The state of Scenario B: the seeded code store, and user 1 already
holding the `equipe` role (the result of Scenario A). -/
def dbScenarioB : DB :=
  { user_roles := [{ id := 50, user_id := 1, role := .equipe, created_at := 1 }],
    access_codes := seedAccessCodes }

/-! ## Theorems -/

/-- C1.  The spec claims the Role Store enforces at-most-one row per user
by a storage-layer uniqueness constraint on the user identifier alone,
closing the race between concurrent `assignRoleWithCode` calls for the
same user with different valid codes.  The DDL actually declares
`UNIQUE (user_id, role)`: evaluating the interleaving in which both
concurrent calls for user 7 (one with the admin code, one with the equipe
code) pass their EXISTS check before either inserts, both INSERTs are
accepted by the storage constraint, both calls return a role, and the
final state holds two RoleAssignment rows for user 7.  The last conjunct
shows the storage layer itself accepting a second row for a user who
already has one. -/
theorem userRoles_constraint_not_per_user :
    (runSchedule ⟨7, "MASTER_FLORIPA", 10, 1⟩ ⟨7, "EQUIPE_2025", 11, 1⟩
        [true, false, true, false, true, false]
        { db := seedDB, c1 := .start, c2 := .start }).c1 = .done (some .admin) ∧
    (runSchedule ⟨7, "MASTER_FLORIPA", 10, 1⟩ ⟨7, "EQUIPE_2025", 11, 1⟩
        [true, false, true, false, true, false]
        { db := seedDB, c1 := .start, c2 := .start }).c2 = .done (some .equipe) ∧
    ((runSchedule ⟨7, "MASTER_FLORIPA", 10, 1⟩ ⟨7, "EQUIPE_2025", 11, 1⟩
        [true, false, true, false, true, false]
        { db := seedDB, c1 := .start, c2 := .start }).db.user_roles.filter
      (fun row => row.user_id == 7)).length = 2 ∧
    insertUserRole
      { user_roles := [{ id := 10, user_id := 7, role := .admin, created_at := 1 }],
        access_codes := seedAccessCodes }
      { id := 11, user_id := 7, role := .equipe, created_at := 1 } ≠ none := by
  decide

/-- C2.  Whenever `assign_role_with_code` succeeds, exactly one
RoleAssignment row exists afterwards for that user, its role is the role
the Access Code Store maps the submitted code to at call time
(`validate_access_code` on the same state), and that role is the returned
value. -/
theorem assign_success_exactly_one_row (db : DB) (u : Nat) (c : String)
    (i t : Nat) (r : AppRole) (db2 : DB)
    (h : assignOutcome db u c i t = (.assigned r, db2)) :
    ((db2.user_roles.filter (fun row => row.user_id == u)).length = 1) ∧
    (∀ row ∈ db2.user_roles, row.user_id = u → row.role = r) ∧
    validate_access_code db c = some r ∧
    assign_role_with_code db u c i t = (some r, db2) := by
  have hret : assign_role_with_code db u c i t = (some r, db2) := by
    unfold assign_role_with_code
    rw [h]
  unfold assignOutcome at h
  cases hfind : db.access_codes.find? (fun row => row.code == c) with
  | none => rw [hfind] at h; exact absurd h (by simp)
  | some matched =>
    rw [hfind] at h
    dsimp only at h
    by_cases hex : db.user_roles.any (fun row => row.user_id == u)
    · rw [if_pos hex] at h; exact absurd h (by simp)
    · rw [if_neg hex] at h
      unfold insertUserRole at h
      by_cases hviol : userRolesViolation db.user_roles
          { id := i, user_id := u, role := matched.role, created_at := t }
      · rw [if_pos hviol] at h; exact absurd h (by simp)
      · rw [if_neg hviol] at h
        simp only [Prod.mk.injEq, AssignOutcome.assigned.injEq] at h
        obtain ⟨hr, hdb⟩ := h
        have hnone : ∀ row ∈ db.user_roles, ¬ (row.user_id == u) = true := by
          simpa [List.any_eq_true] using hex
        constructor
        · rw [← hdb]
          simp only [List.filter_append]
          have hnil : db.user_roles.filter (fun row => row.user_id == u) = [] := by
            rw [List.filter_eq_nil_iff]
            exact hnone
          simp [hnil]
        constructor
        · intro row hrow hru
          rw [← hdb] at hrow
          simp only [List.mem_append, List.mem_singleton] at hrow
          cases hrow with
          | inl hin => exact absurd (by simpa using hru) (hnone row hin)
          | inr heq => rw [heq]; exact hr
        constructor
        · unfold validate_access_code
          rw [hfind]
          simp [hr]
        · exact hret

/-- Witness for C2 at Scenario A: from the seeded store, user 42
submitting "EQUIPE_2025" is assigned `equipe`, and the resulting state
has exactly the one row `(42, equipe)`. -/
theorem assign_success_exactly_one_row_witness :
    ((seedDB.user_roles ++ [{ id := 10, user_id := 42, role := .equipe, created_at := 1 }]
        : List RoleRow).filter (fun row => row.user_id == 42)).length = 1 ∧
    validate_access_code seedDB "EQUIPE_2025" = some .equipe := by
  have h := assign_success_exactly_one_row seedDB 42 "EQUIPE_2025" 10 1 .equipe
    { user_roles := [{ id := 10, user_id := 42, role := .equipe, created_at := 1 }],
      access_codes := seedAccessCodes }
    (by decide)
  exact ⟨h.1, h.2.2.1⟩

/-- C5.  Submitting a code present on no row of the Access Code Store
makes `assign_role_with_code` take the invalid-code exit and return NULL,
leaving the database (both stores) exactly as it was. -/
theorem assign_invalid_code_no_change (db : DB) (u : Nat) (c : String) (i t : Nat)
    (h : ∀ row ∈ db.access_codes, row.code ≠ c) :
    assignOutcome db u c i t = (.invalidCode, db) ∧
    assign_role_with_code db u c i t = (none, db) := by
  have hfind : db.access_codes.find? (fun row => row.code == c) = none := by
    rw [List.find?_eq_none]
    intro row hrow
    simpa using h row hrow
  have h1 : assignOutcome db u c i t = (.invalidCode, db) := by
    unfold assignOutcome
    rw [hfind]
  refine ⟨h1, ?_⟩
  unfold assign_role_with_code
  rw [h1]

/-- Witness for C5 at Scenario C: a brand-new user submits "WRONG_CODE"
against the seeded store; the call fails on the invalid-code path and the
state is untouched. -/
theorem assign_invalid_code_no_change_witness :
    assignOutcome seedDB 9 "WRONG_CODE" 10 1 = (.invalidCode, seedDB) ∧
    assign_role_with_code seedDB 9 "WRONG_CODE" 10 1 = (none, seedDB) := by
  exact assign_invalid_code_no_change seedDB 9 "WRONG_CODE" 10 1 (by decide)

/-- C6, counterexample.  The claim says a user who already has a
RoleAssignment fails with the already-assigned outcome for ANY further
code.  With an invalid code the function exits on the invalid-code path
before ever reaching the EXISTS check: for user 1 of Scenario B (already
holding `equipe`) submitting "WRONG_CODE", the internal outcome is
`invalidCode`, not `alreadyAssigned` of any of the three roles. -/
theorem assign_repeat_invalid_code_kind :
    (assignOutcome dbScenarioB 1 "WRONG_CODE" 99 5).1 = .invalidCode ∧
    (assignOutcome dbScenarioB 1 "WRONG_CODE" 99 5).1 ≠ .alreadyAssigned .admin ∧
    (assignOutcome dbScenarioB 1 "WRONG_CODE" 99 5).1 ≠ .alreadyAssigned .equipe ∧
    (assignOutcome dbScenarioB 1 "WRONG_CODE" 99 5).1 ≠ .alreadyAssigned .recepcao := by
  decide

/-- C6, amended.  Any further `assign_role_with_code` call for a user who
already has a RoleAssignment row fails (returns NULL) and leaves the
database — in particular the Role Store and the rows of that user —
exactly as they were; when the submitted code is valid, the failure is
the already-assigned exit carrying the matched role. -/
theorem assign_already_assigned_no_change (db : DB) (u : Nat) (c : String) (i t : Nat)
    (h : ∃ row ∈ db.user_roles, row.user_id = u) :
    assign_role_with_code db u c i t = (none, db) ∧
    (∀ m, validate_access_code db c = some m →
      (assignOutcome db u c i t).1 = .alreadyAssigned m) := by
  have hany : db.user_roles.any (fun row => row.user_id == u) = true := by
    rw [List.any_eq_true]
    obtain ⟨row, hrow, hu⟩ := h
    exact ⟨row, hrow, by simpa using hu⟩
  cases hfind : db.access_codes.find? (fun row => row.code == c) with
  | none =>
    have h1 : assignOutcome db u c i t = (.invalidCode, db) := by
      unfold assignOutcome
      rw [hfind]
    constructor
    · unfold assign_role_with_code
      rw [h1]
    · intro m hm
      unfold validate_access_code at hm
      rw [hfind] at hm
      exact absurd hm (by simp)
  | some matched =>
    have h1 : assignOutcome db u c i t = (.alreadyAssigned matched.role, db) := by
      unfold assignOutcome
      rw [hfind]
      dsimp only
      rw [if_pos hany]
    constructor
    · unfold assign_role_with_code
      rw [h1]
    · intro m hm
      unfold validate_access_code at hm
      rw [hfind] at hm
      simp only [Option.map_some', Option.some.injEq] at hm
      rw [h1, hm]

/-- Witness for the amended C6 at Scenario B: user 1, already holding
`equipe`, submits the valid admin code "MASTER_FLORIPA"; the call returns
NULL, the database is unchanged, and the internal exit is
already-assigned. -/
theorem assign_already_assigned_no_change_witness :
    assign_role_with_code dbScenarioB 1 "MASTER_FLORIPA" 60 2 = (none, dbScenarioB) ∧
    (assignOutcome dbScenarioB 1 "MASTER_FLORIPA" 60 2).1 = .alreadyAssigned .admin := by
  have h := assign_already_assigned_no_change dbScenarioB 1 "MASTER_FLORIPA" 60 2
    ⟨{ id := 50, user_id := 1, role := .equipe, created_at := 1 }, by decide, rfl⟩
  exact ⟨h.1, h.2 .admin (by decide)⟩

/-- C7.  The two failure conditions are internally distinct exit paths of
`assign_role_with_code` — a fresh user with an unknown code exits on
`invalidCode` while the already-assigned user of Scenario B exits on
`alreadyAssigned admin`, two different internal outcomes — yet both calls
return the same NULL to their caller, so the external results are
indistinguishable. -/
theorem assign_failure_kinds_distinct :
    (assignOutcome seedDB 9 "WRONG_CODE" 10 1).1 = .invalidCode ∧
    (assignOutcome dbScenarioB 1 "MASTER_FLORIPA" 60 2).1 = .alreadyAssigned .admin ∧
    (assignOutcome seedDB 9 "WRONG_CODE" 10 1).1 ≠
      (assignOutcome dbScenarioB 1 "MASTER_FLORIPA" 60 2).1 ∧
    (assign_role_with_code seedDB 9 "WRONG_CODE" 10 1).1 = none ∧
    (assign_role_with_code dbScenarioB 1 "MASTER_FLORIPA" 60 2).1 = none := by
  decide

/-- C3.  In the policy set left by the fix migration, a caller that does
not resolve as admin is denied every direct write on `user_roles`
(INSERT for any payload — the only INSERT policy is `WITH CHECK (false)` —
and likewise UPDATE and DELETE) and is denied SELECT on every
`access_codes` row, while a caller that resolves as admin may read every
`access_codes` row. -/
theorem policies_protect_roles_and_codes (db : DB) (uid : Option Nat) :
    (has_role db uid .admin = false →
      (∀ row, canInsertUserRoleRow db uid row = false) ∧
      (∀ row, canUpdateUserRoleRow db uid row = false) ∧
      (∀ row, canDeleteUserRoleRow db uid row = false) ∧
      (∀ row, canSelectAccessCodeRow db uid row = false)) ∧
    (has_role db uid .admin = true →
      ∀ row, canSelectAccessCodeRow db uid row = true) := by
  constructor
  · intro h
    refine ⟨fun _ => rfl, fun _ => rfl, fun _ => ?_, fun _ => ?_⟩
    · unfold canDeleteUserRoleRow
      exact h
    · unfold canSelectAccessCodeRow
      exact h
  · intro h row
    unfold canSelectAccessCodeRow
    exact h

/-- Witness for C3 on a store where user 2 is admin and user 5 is equipe:
the non-admin caller 5 can neither insert a `user_roles` row (even one
naming itself admin) nor read a code row, while caller 2 can read it. -/
theorem policies_protect_roles_and_codes_witness :
    canInsertUserRoleRow
      { user_roles := [{ id := 70, user_id := 2, role := .admin, created_at := 0 },
                       { id := 71, user_id := 5, role := .equipe, created_at := 0 }],
        access_codes := seedAccessCodes }
      (some 5) { id := 72, user_id := 5, role := .admin, created_at := 3 } = false ∧
    canSelectAccessCodeRow
      { user_roles := [{ id := 70, user_id := 2, role := .admin, created_at := 0 },
                       { id := 71, user_id := 5, role := .equipe, created_at := 0 }],
        access_codes := seedAccessCodes }
      (some 5) { id := 1, role := .admin, code := "MASTER_FLORIPA", updated_at := 0, updated_by := none } = false ∧
    canSelectAccessCodeRow
      { user_roles := [{ id := 70, user_id := 2, role := .admin, created_at := 0 },
                       { id := 71, user_id := 5, role := .equipe, created_at := 0 }],
        access_codes := seedAccessCodes }
      (some 2) { id := 1, role := .admin, code := "MASTER_FLORIPA", updated_at := 0, updated_by := none } = true := by
  have h5 := (policies_protect_roles_and_codes
    { user_roles := [{ id := 70, user_id := 2, role := .admin, created_at := 0 },
                     { id := 71, user_id := 5, role := .equipe, created_at := 0 }],
      access_codes := seedAccessCodes } (some 5)).1 (by decide)
  have h2 := (policies_protect_roles_and_codes
    { user_roles := [{ id := 70, user_id := 2, role := .admin, created_at := 0 },
                     { id := 71, user_id := 5, role := .equipe, created_at := 0 }],
      access_codes := seedAccessCodes } (some 2)).2 (by decide)
  exact ⟨h5.1 _, h5.2.2.2 _, h2 _⟩

/-- The access-code UPDATE rewrites only the rows of the targeted role
and leaves every row of every role in place, so the number of rows
matching the targeted role is unchanged. -/
theorem updateAccessCode_filter_length (l : List CodeRow) (r : AppRole)
    (c : String) (t : Nat) :
    ((l.map (fun row => if row.role == r then { row with code := c, updated_at := t } else row)).filter
        (fun row => row.role == r)).length =
      (l.filter (fun row => row.role == r)).length := by
  induction l with
  | nil => rfl
  | cons x xs ih =>
    simp only [List.map_cons, List.filter_cons]
    have hrole : ((if (x.role == r) = true then
        { x with code := c, updated_at := t } else x) : CodeRow).role = x.role := by
      split <;> rfl
    rw [hrole]
    by_cases hx : (x.role == r) = true
    · simp only [if_pos hx, List.length_cons, ih]
    · simp only [if_neg hx, ih]

/-- Every row of the targeted role carries the new code after the UPDATE. -/
theorem updateAccessCode_code_of_mem (l : List CodeRow) (r : AppRole)
    (c : String) (t : Nat) :
    ∀ row ∈ l.map (fun row => if row.role == r then { row with code := c, updated_at := t } else row),
      row.role = r → row.code = c := by
  intro row hrow hr
  obtain ⟨x, hx, heq⟩ := List.mem_map.mp hrow
  by_cases hxr : (x.role == r) = true
  · rw [if_pos hxr] at heq
    rw [← heq]
  · rw [if_neg hxr] at heq
    rw [← heq] at hr
    exact absurd (by simpa using hr) hxr

/-- C8.  Starting from a store with exactly one row for a role (the
seeded invariant), calling `updateAccessCode(role, code)` twice in a row
leaves exactly one row for that role, every row of that role carries the
latest submitted code, and the total number of rows never grows — the
UPDATE path can never create a duplicate row. -/
theorem updateAccessCode_twice_one_row (db : DB) (r : AppRole) (c : String)
    (t1 t2 : Nat)
    (h : (db.access_codes.filter (fun row => row.role == r)).length = 1) :
    (((updateAccessCode (updateAccessCode db r c t1) r c t2).access_codes.filter
        (fun row => row.role == r)).length = 1) ∧
    (∀ row ∈ (updateAccessCode (updateAccessCode db r c t1) r c t2).access_codes,
      row.role = r → row.code = c) ∧
    (updateAccessCode (updateAccessCode db r c t1) r c t2).access_codes.length =
      db.access_codes.length := by
  refine ⟨?_, ?_, ?_⟩
  · unfold updateAccessCode
    rw [updateAccessCode_filter_length, updateAccessCode_filter_length]
    exact h
  · unfold updateAccessCode
    exact updateAccessCode_code_of_mem _ r c t2
  · unfold updateAccessCode
    simp

/-- Witness for C8: rotating the reception code to "NEW_CODE_2026" twice
over the seeded store keeps exactly one reception row and three rows in
total. -/
theorem updateAccessCode_twice_one_row_witness :
    (((updateAccessCode (updateAccessCode seedDB .recepcao "NEW_CODE_2026" 5)
        .recepcao "NEW_CODE_2026" 6).access_codes.filter
        (fun row => row.role == .recepcao)).length = 1) ∧
    (updateAccessCode (updateAccessCode seedDB .recepcao "NEW_CODE_2026" 5)
        .recepcao "NEW_CODE_2026" 6).access_codes.length =
      seedDB.access_codes.length := by
  have h := updateAccessCode_twice_one_row seedDB .recepcao "NEW_CODE_2026" 5 6 (by decide)
  exact ⟨h.1, h.2.2⟩

/-- C9.  After the admin user-deletion path removes the
`user_roles` rows of a user, every Role Resolver query for that user reports no
privilege — `get_user_role` is NULL and `has_role` is false for every
role — and every role-gated policy predicate evaluates that user as
unprivileged: no code reads or updates, no role deletes, no log reads,
and (as for everyone) no direct role inserts or updates. -/
theorem deleteUserRoles_revokes_all (db : DB) (u : Nat) :
    get_user_role (deleteUserRoles db u) u = none ∧
    (∀ r, has_role (deleteUserRoles db u) (some u) r = false) ∧
    (∀ row, canSelectAccessCodeRow (deleteUserRoles db u) (some u) row = false) ∧
    (∀ row, canUpdateAccessCodeRow (deleteUserRoles db u) (some u) row = false) ∧
    (∀ row, canDeleteUserRoleRow (deleteUserRoles db u) (some u) row = false) ∧
    canSelectActivityLog (deleteUserRoles db u) (some u) = false ∧
    (∀ row, canInsertUserRoleRow (deleteUserRoles db u) (some u) row = false) ∧
    (∀ row, canUpdateUserRoleRow (deleteUserRoles db u) (some u) row = false) := by
  have hmem : ∀ row ∈ (deleteUserRoles db u).user_roles, ¬ row.user_id = u := by
    intro row hrow
    have h2 := (List.mem_filter.mp hrow).2
    simpa using h2
  have hhas : ∀ r, has_role (deleteUserRoles db u) (some u) r = false := by
    intro r
    unfold has_role
    rw [List.any_eq_false]
    intro row hrow
    intro hcontra
    have h1 := (Bool.and_eq_true _ _).mp hcontra
    exact hmem row hrow (by simpa using h1.1)
  refine ⟨?_, hhas, fun _ => hhas .admin, fun _ => hhas .admin,
    fun _ => hhas .admin, ?_, fun _ => rfl, fun _ => rfl⟩
  · unfold get_user_role
    have hfind : (deleteUserRoles db u).user_roles.find?
        (fun row => row.user_id == u) = none := by
      rw [List.find?_eq_none]
      intro row hrow
      simpa using hmem row hrow
    rw [hfind]
    rfl
  · unfold canSelectActivityLog
    rw [hhas .admin, hhas .equipe]
    rfl

/-- The store reached from the seed by two admin code updates that give
`admin` and `equipe` the same code string — nothing in the schema
forbids it, since `access_codes` declares UNIQUE only on `role`. -/
def dbShared : DB :=
  updateAccessCode (updateAccessCode seedDB .admin "SHARED_CODE" 5) .equipe "SHARED_CODE" 5

/-- The same rows as `dbShared.access_codes` in a different physical
order (row order is not part of the logical store contents: no query in
the core orders `access_codes`, and the row-picking lookups run without
ORDER BY). -/
def dbSharedPerm : DB :=
  { user_roles := [],
    access_codes :=
      [{ id := 2, role := .equipe, code := "SHARED_CODE", updated_at := 5, updated_by := none },
       { id := 1, role := .admin, code := "SHARED_CODE", updated_at := 5, updated_by := none },
       { id := 3, role := .recepcao, code := "RECEPCAO_EVENTO", updated_at := 0, updated_by := none }]}

/-- C10.  Admin updates can make two distinct roles hold the same code
(the role column stays one-row-per-role, the code column is not unique);
`assign_role_with_code` with the shared code still succeeds for a fresh
user and assigns a role whose current code equals the submitted one, but
which matching role is picked is not determined by the store contents:
the same row set in a different physical order yields a different
assigned role. -/
theorem sharedCode_assignment_order_dependent :
    dbShared.access_codes.map (fun row => row.role) = [.admin, .equipe, .recepcao] ∧
    (dbShared.access_codes.filter (fun row => row.code == "SHARED_CODE")).map
      (fun row => row.role) = [.admin, .equipe] ∧
    (assignOutcome dbShared 9 "SHARED_CODE" 20 6).1 = .assigned .admin ∧
    validate_access_code dbShared "SHARED_CODE" = some .admin ∧
    List.Perm dbSharedPerm.access_codes dbShared.access_codes ∧
    dbSharedPerm.user_roles = dbShared.user_roles ∧
    (assignOutcome dbSharedPerm 9 "SHARED_CODE" 20 6).1 = .assigned .equipe := by
  refine ⟨by decide, by decide, by decide, by decide, ?_, by decide, by decide⟩
  have h : dbShared.access_codes =
      [{ id := 1, role := .admin, code := "SHARED_CODE", updated_at := 5, updated_by := none },
       { id := 2, role := .equipe, code := "SHARED_CODE", updated_at := 5, updated_by := none },
       { id := 3, role := .recepcao, code := "RECEPCAO_EVENTO", updated_at := 0, updated_by := none }] := by
    decide
  rw [h]
  exact List.Perm.swap _ _ _

/-- Classifier: is a backend request a direct write into the Role Store? -/
def isRoleStoreWrite : ClientCall → Bool
  | .insertUserRoleRow _ _ => true
  | _ => false

/-- Classifier: is a backend request a direct read of the Access Code
Store? -/
def isCodeStoreRead : ClientCall → Bool
  | .selectAccessCodeByCode _ => true
  | _ => false

/-- Classifier: is a backend request an invocation of the Role Assignment
Service entry point? -/
def isServiceCall : ClientCall → Bool
  | .rpcAssignRole _ _ => true
  | _ => false

/-- C4, counterexample.  The repository still carries the legacy signup
hook, whose trace on a successful run reads the Access Code Store itself,
writes the Role Store directly with a role value of its own choosing, and
never invokes the Role Assignment Service at all — the claim as stated is
false of that signup flow. -/
theorem signUpLegacy_bypasses_service :
    (signUpLegacy "a@b.c" "pw" "Ana" "EQUIPE_2025"
        (.ok (some .equipe)) (.ok (some 7))).1 =
      [.selectAccessCodeByCode "EQUIPE_2025",
       .authSignUp "a@b.c" "pw" "Ana",
       .insertUserRoleRow 7 .equipe,
       .updateProfileName 7 "Ana"] ∧
    ((signUpLegacy "a@b.c" "pw" "Ana" "EQUIPE_2025"
        (.ok (some .equipe)) (.ok (some 7))).1.filter isCodeStoreRead).length = 1 ∧
    ((signUpLegacy "a@b.c" "pw" "Ana" "EQUIPE_2025"
        (.ok (some .equipe)) (.ok (some 7))).1.filter isRoleStoreWrite).length = 1 ∧
    ((signUpLegacy "a@b.c" "pw" "Ana" "EQUIPE_2025"
        (.ok (some .equipe)) (.ok (some 7))).1.filter isServiceCall).length = 0 := by
  decide

/-- C4, amended: the current signup hook.  For every input and every
backend response, its trace contains no direct Access Code Store read and
no direct Role Store write; it invokes the Role Assignment Service
exactly once when identity creation returns a user and never otherwise;
and any service invocation carries exactly the created user id and the
submitted code — the client supplies no role — and sits immediately after
the identity-creation request. -/
theorem signUpCurrent_role_only_via_service (email pass display code : String)
    (authResp : Except String (Option Nat))
    (rpcResp : Except String (Option AppRole)) :
    ((signUpCurrent email pass display code authResp rpcResp).1.filter
      isCodeStoreRead = []) ∧
    ((signUpCurrent email pass display code authResp rpcResp).1.filter
      isRoleStoreWrite = []) ∧
    (((signUpCurrent email pass display code authResp rpcResp).1.filter
        isServiceCall).length =
      match authResp with
      | .ok (some _) => 1
      | _ => 0) ∧
    (∀ u c2, ClientCall.rpcAssignRole u c2 ∈
        (signUpCurrent email pass display code authResp rpcResp).1 →
      c2 = code ∧ authResp = .ok (some u) ∧
      (signUpCurrent email pass display code authResp rpcResp).1.take 2 =
        [.authSignUp email pass display, .rpcAssignRole u code]) := by
  match authResp with
  | .error e =>
    refine ⟨rfl, rfl, rfl, ?_⟩
    intro u c2 hmem
    exact absurd hmem (by simp [signUpCurrent])
  | .ok none =>
    refine ⟨rfl, rfl, rfl, ?_⟩
    intro u c2 hmem
    exact absurd hmem (by simp [signUpCurrent])
  | .ok (some uid) =>
    match rpcResp with
    | .error e =>
      refine ⟨rfl, rfl, rfl, ?_⟩
      intro u c2 hmem
      simp only [signUpCurrent, List.mem_append, List.mem_singleton,
        List.mem_cons, List.not_mem_nil, or_false] at hmem
      rcases hmem with h | h
      · exact absurd h (by simp)
      · obtain ⟨h1, h2⟩ := ClientCall.rpcAssignRole.inj h
        exact ⟨h2, by rw [h1], by rw [h1]; rfl⟩
    | .ok none =>
      refine ⟨rfl, rfl, rfl, ?_⟩
      intro u c2 hmem
      simp only [signUpCurrent, List.mem_append, List.mem_singleton,
        List.mem_cons, List.not_mem_nil, or_false] at hmem
      rcases hmem with h | h
      · exact absurd h (by simp)
      · obtain ⟨h1, h2⟩ := ClientCall.rpcAssignRole.inj h
        exact ⟨h2, by rw [h1], by rw [h1]; rfl⟩
    | .ok (some r) =>
      refine ⟨rfl, rfl, rfl, ?_⟩
      intro u c2 hmem
      have hmem2 : ClientCall.rpcAssignRole u c2 =
            ClientCall.authSignUp email pass display ∨
          ClientCall.rpcAssignRole u c2 = ClientCall.rpcAssignRole uid code ∨
          ClientCall.rpcAssignRole u c2 =
            ClientCall.updateProfileName uid display := by
        simpa [signUpCurrent] using hmem
      rcases hmem2 with h | h | h
      · exact absurd h (by simp)
      · obtain ⟨h1, h2⟩ := ClientCall.rpcAssignRole.inj h
        exact ⟨h2, by rw [h1], by rw [h1]; rfl⟩
      · exact absurd h (by simp)

/-- Witness for the amended C4: a concrete successful run — identity 7
created, service returns `equipe` — reads no codes, writes no roles, and
calls the service exactly once. -/
theorem signUpCurrent_role_only_via_service_witness :
    ((signUpCurrent "a@b.c" "pw" "Ana" "EQUIPE_2025"
        (.ok (some 7)) (.ok (some .equipe))).1.filter isCodeStoreRead = []) ∧
    ((signUpCurrent "a@b.c" "pw" "Ana" "EQUIPE_2025"
        (.ok (some 7)) (.ok (some .equipe))).1.filter isRoleStoreWrite = []) ∧
    ((signUpCurrent "a@b.c" "pw" "Ana" "EQUIPE_2025"
        (.ok (some 7)) (.ok (some .equipe))).1.filter isServiceCall).length = 1 ∧
    (signUpCurrent "a@b.c" "pw" "Ana" "EQUIPE_2025"
        (.ok (some 7)) (.ok (some .equipe))).1.take 2 =
      [.authSignUp "a@b.c" "pw" "Ana", .rpcAssignRole 7 "EQUIPE_2025"] := by
  have h := signUpCurrent_role_only_via_service "a@b.c" "pw" "Ana" "EQUIPE_2025"
    (.ok (some 7)) (.ok (some .equipe))
  exact ⟨h.1, h.2.1, h.2.2.1,
    (h.2.2.2 7 "EQUIPE_2025" (by decide)).2.2⟩

end Checkin
